import Mathlib

/-!
Shallow embedding of the tiling policy core in `src/main.rs` of `noway`:
window handles, the global interactive-session cell (`COMPOSITOR`), the
hidden-window stack (`HIDDEN`), the layout routine and the event callbacks,
modelled as pure state transitions on a single-output world.

Machine integers (`u32`, `i32`, `usize`) are modelled as `Nat`/`Int`; all
quantities the claims touch stay far below the wrap thresholds for valid
resolutions, and the one abort the arithmetic can produce (division by zero
in `update_layout`) is modelled explicitly as `none`.  Runtime calls that
the spec declares always-successful by contract (`get_resolution().unwrap()`,
`get_geometry().unwrap()` on live views) are modelled as total fields.
-/

namespace Noway

/-- Window handle (`WlcView`): an opaque identity, comparable for equality.
Handle `0` plays the role of the root/background surface. -/
abbrev WlcView := Nat

/-- The runtime's `view.is_root()` predicate. -/
def is_root (v : WlcView) : Bool := v == 0

structure Point where
  x : Int
  y : Int
deriving DecidableEq

structure Size where
  w : Nat
  h : Nat
deriving DecidableEq

structure Geometry where
  origin : Point
  size : Size
deriving DecidableEq

/-- wlc resize-edge bitmask constants (`ResizeEdge`). -/
def RESIZE_RIGHT : Nat := 8

def RESIZE_BOTTOM : Nat := 2

/-- wlc keyboard-modifier bitmask constant for Alt. -/
def MOD_ALT : Nat := 8

def KEY_d : Nat := 0x64

def KEY_o : Nat := 0x6f

def KEY_q : Nat := 0x71

def KEY_Left : Nat := 0xff51

def KEY_Up : Nat := 0xff52

def KEY_Right : Nat := 0xff53

def KEY_Down : Nat := 0xff54

inductive KeyState where
  | Pressed
  | Released
deriving DecidableEq

/-- The global `COMPOSITOR` cell: the interactive session (`view`) and its
resize edge-set (`edges`, a bitmask; `0` is `ResizeEdge::empty()`). -/
structure Compositor where
  view : Option WlcView
  edges : Nat
deriving DecidableEq

/-- Single-output world: the two global cells plus the runtime-side
observables the callbacks read and mutate.  `stack` is the output's views in
stacking order, bottom-most first / top-most last (so `bring_to_front`
appends and `send_to_back` prepends, matching how the code scans it). -/
structure World where
  comp : Compositor
  hidden : List WlcView
  stack : List WlcView
  focused : Option WlcView
  resizing : WlcView → Bool
  geom : WlcView → Geometry
  resolution : Size
  closed : List WlcView
  terminated : Bool
  spawned : Nat

/-- The runtime's `view.bring_to_front()`: move `v` to the top (end). -/
def bring_to_front (v : WlcView) (stack : List WlcView) : List WlcView :=
  stack.erase v ++ [v]

/-- The runtime's `view.send_to_back()`: move `v` to the bottom (front). -/
def send_to_back (v : WlcView) (stack : List WlcView) : List WlcView :=
  v :: stack.erase v

/-- `view.set_state(VIEW_RESIZING, b)` on the resizing-flag table. -/
def set_state_resizing (f : WlcView → Bool) (v : WlcView) (b : Bool) :
    WlcView → Bool :=
  fun u => if u = v then b else f u

/-- `view.set_geometry(_, g)` on the geometry table. -/
def set_geom (f : WlcView → Geometry) (v : WlcView) (g : Geometry) :
    WlcView → Geometry :=
  fun u => if u = v then g else f u

/-- `start_interactive_action` (main.rs:23): fails if a session is already
active, otherwise records the session and raises the window. -/
def start_interactive_action (s : World) (view : WlcView) : Bool × World :=
  if s.comp.view ≠ none then
    (false, s)
  else
    (true, {s with comp := {s.comp with view := some view},
                   stack := bring_to_front view s.stack})

/-- `start_interactive_move` (main.rs:34). -/
def start_interactive_move (s : World) (view : WlcView) : World :=
  (start_interactive_action s view).2

/-- `start_interactive_resize` (main.rs:38): on successful acquisition also
fixes the edge-set to bottom-right and sets the resizing flag. -/
def start_interactive_resize (s : World) (view : WlcView) : World :=
  let r := start_interactive_action s view
  if r.1 then
    {r.2 with comp := {r.2.comp with edges := RESIZE_RIGHT ||| RESIZE_BOTTOM},
              resizing := set_state_resizing r.2.resizing view true}
  else
    r.2

/-- `stop_interactive_action` (main.rs:46). -/
def stop_interactive_action (s : World) : World :=
  match s.comp.view with
  | none => s
  | some view =>
      {s with comp := ⟨none, 0⟩,
              resizing := set_state_resizing s.resizing view false}

/-- `update_layout` (main.rs:57) as a pure function from the resolution, the
output's views in stacking order and the hidden list to the sequence of
geometry assignments it performs.  `none` models a panic: when every view is
hidden, `viewlen = 0` and the row-count divisors `(viewlen + 1) / 2` and
`viewlen / 2` are zero, so the Rust `u32` division panics (`Nat` subtraction
also folds a `hidden` longer than `views` — a `usize` underflow abort in the
source — into this case). -/
def update_layout (resolution : Size) (views hidden : List WlcView) :
    Option (List (WlcView × Geometry)) :=
  if views = [] then some []
  else
    let viewlen := views.length - hidden.length
    if viewlen = 1 then
      some [(views.headI, ⟨⟨0, 0⟩, resolution⟩)]
    else if viewlen = 0 then
      none
    else
      let w := resolution.w / 2
      let h0 := resolution.h / ((viewlen + 1) / 2)
      let h1 := resolution.h / (viewlen / 2)
      some (((views.filter (fun v => !(hidden.contains v))).enum).map (fun p =>
        (p.2,
          if p.1 &&& 1 = 1 then
            ⟨⟨(w : Int), (h1 : Int) * ((p.1 / 2 : Nat) : Int)⟩, ⟨w, h1⟩⟩
          else
            ⟨⟨0, (h0 : Int) * ((p.1 / 2 : Nat) : Int)⟩, ⟨w, h0⟩⟩)))

/-- The tile the spec's words assign to window `i` out of `N ≥ 2` visible
windows: both columns have width `resolution.w / 2`; even `i` goes to the
left column (`x = 0`) with height `resolution.h / ceil(N/2)` (for naturals
`ceil(N/2) = (N + 1) / 2`), odd `i` to the right column with height
`resolution.h / floor(N/2)`; the vertical offset is the column's row height
times `i / 2` (integer division). -/
def expectedTile (resolution : Size) (N i : Nat) : Geometry :=
  if i % 2 = 1 then
    ⟨⟨((resolution.w / 2 : Nat) : Int),
      ((resolution.h / (N / 2) : Nat) : Int) * ((i / 2 : Nat) : Int)⟩,
     ⟨resolution.w / 2, resolution.h / (N / 2)⟩⟩
  else
    ⟨⟨0, ((resolution.h / ((N + 1) / 2) : Nat) : Int) * ((i / 2 : Nat) : Int)⟩,
     ⟨resolution.w / 2, resolution.h / ((N + 1) / 2)⟩⟩

/-- Apply a sequence of `set_geometry` assignments to the geometry table. -/
def apply_layout (L : List (WlcView × Geometry)) (f : WlcView → Geometry) :
    WlcView → Geometry :=
  L.foldl (fun acc p => set_geom acc p.1 p.2) f

/-- `update_layout` acting on the world (the callbacks call it this way). -/
def update_layout_world (s : World) : Option World :=
  (update_layout s.resolution s.stack s.hidden).map
    (fun L => {s with geom := apply_layout L s.geom})

/-- `on_view_destroyed` (main.rs:97).  The runtime has already detached the
destroyed view from the output's stack when the callback runs, so `s.stack`
is the post-destruction stacking order.  The focus scan uses the hidden list
*before* the removal, exactly as the source reads the lock. -/
def on_view_destroyed (s : World) (view : WlcView) : Option World :=
  let s1 :=
    match (s.stack.reverse.filter (fun v => !(s.hidden.contains v))).head? with
    | some lastview => {s with focused := some lastview}
    | none => s
  update_layout_world {s1 with hidden := s1.hidden.erase view}

/-- `on_keyboard_key` (main.rs:123), with the keysym already translated by the
runtime (`get_keysym_for_key` is a pure query).  `none` models a panic inside
the handler (only reachable through `update_layout`); the `KEY_q` spawn is
modelled as succeeding (its failure is a fatal `expect`). -/
def on_keyboard_key (s : World) (view : WlcView) (mods sym : Nat)
    (state : KeyState) : Option (Bool × World) :=
  if state = KeyState.Pressed ∧ mods = MOD_ALT then
    if sym = KEY_d then
      some (true, if is_root view then s else {s with closed := view :: s.closed})
    else if sym = KEY_Left then
      if is_root view then some (true, s)
      else
        let s1 : World := {s with stack := send_to_back view s.stack}
        let visible := s1.stack.filter (fun v => !(s1.hidden.contains v))
        if visible.length < 2 then some (true, s1)
        else
          match visible.getLast? with
          | none => none
          | some top => some (true, {s1 with focused := some top})
    else if sym = KEY_Right then
      if is_root view then some (true, s)
      else
        let visible := s.stack.filter (fun v => !(s.hidden.contains v))
        if visible.length < 2 then some (true, s)
        else
          match visible.head? with
          | none => none
          | some first =>
              some (true, {s with stack := bring_to_front first s.stack,
                                  focused := some first})
    else if sym = KEY_Down then
      if is_root view then some (true, s)
      else
        let s1 : World := {s with stack := send_to_back view s.stack,
                                  hidden := s.hidden ++ [view]}
        (update_layout_world s1).map (fun s2 => (true, s2))
    else if sym = KEY_Up then
      if is_root view then some (true, s)
      else
        match s.hidden.getLast? with
        | none => some (true, s)
        | some hview =>
            let s1 : World := {s with hidden := s.hidden.dropLast,
                                      stack := bring_to_front hview s.stack,
                                      focused := some hview}
            (update_layout_world s1).map (fun s2 => (true, s2))
    else if sym = KEY_o then
      some (true, {s with terminated := true})
    else if sym = KEY_q then
      some (true, {s with spawned := s.spawned + 1})
    else
      some (false, s)
  else
    some (false, s)

/-- `on_pointer_motion` (main.rs:213).  The raw `set_position` forward is a
runtime effect outside the modelled state. -/
def on_pointer_motion (s : World) (point : Point) : Bool × World :=
  match s.comp.view with
  | none => (false, s)
  | some view =>
      let geo := s.geom view
      let geo2 :=
        if s.comp.edges ≠ 0 then
          { geo with size :=
              ⟨(if point.x > geo.origin.x then max (point.x - geo.origin.x) 32
                else 32).toNat,
               (if point.y > geo.origin.y then max (point.y - geo.origin.y) 32
                else 32).toNat⟩ }
        else
          { geo with origin := point }
      (true, {s with geom := set_geom s.geom view geo2})

/-- An acquire request, for stating properties of call sequences. -/
inductive AcquireOp where
  | move : WlcView → AcquireOp
  | resize : WlcView → AcquireOp

def runAcquire (s : World) : AcquireOp → World
  | .move v => start_interactive_move s v
  | .resize v => start_interactive_resize s v

def runAcquires (s : World) : List AcquireOp → World
  | [] => s
  | op :: ops => runAcquires (runAcquire s op) ops

/-- A baseline world for concrete instantiations: empty session, nothing
hidden, a 1920×1080 output. -/
def baseWorld : World where
  comp := ⟨none, 0⟩
  hidden := []
  stack := []
  focused := none
  resizing := fun _ => false
  geom := fun _ => ⟨⟨0, 0⟩, ⟨0, 0⟩⟩
  resolution := ⟨1920, 1080⟩
  closed := []
  terminated := false
  spawned := 0

/-- World with an active move session on view `1`. -/
def wActive : World := {baseWorld with comp := ⟨some 1, 0⟩, stack := [1]}

/-- Hidden view `3` is also the interactive session's window; view `4` is the
survivor on the output. -/
def wC5 : World :=
  {baseWorld with comp := ⟨some 3, RESIZE_RIGHT ||| RESIZE_BOTTOM⟩,
                  hidden := [3], stack := [4]}

/-- Hidden view `3`, no session; view `4` survives on the output. -/
def wC5d : World := {baseWorld with hidden := [3], stack := [4]}

/-- The world `on_view_destroyed` produces from `wC5d` on destroying `3`. -/
def wC5d2 : World := (on_view_destroyed wC5d 3).getD baseWorld

/-- Hidden view `5` at the bottom of the stack, visible focused view `7`. -/
def wC6 : World :=
  {baseWorld with hidden := [5], stack := [5, 7], focused := some 7}

/-- A lone visible view `7`. -/
def wC6w : World := {baseWorld with stack := [7]}

/-- Three visible views; `3` is top-most and focused. -/
def wC7 : World := {baseWorld with stack := [1, 2, 3], focused := some 3}

/-- Active resize session on view `9`, whose geometry starts at (100,100). -/
def wC8 : World :=
  {baseWorld with comp := ⟨some 9, RESIZE_RIGHT ||| RESIZE_BOTTOM⟩,
                  stack := [9],
                  geom := fun _ => ⟨⟨100, 100⟩, ⟨200, 200⟩⟩}

/-- C1: for every sequence of `start_interactive_action` /
`start_interactive_resize` calls issued while a session is active
(`comp.view = some v0`), every acquire returns `false` with no side effects,
and the whole world — in particular the active session's window and its
edge-set — is left unchanged.  (That at most one session exists at any time
is forced by the single `Option`-valued cell the acquires guard.) -/
theorem single_session (s : World) (v0 : WlcView) (h : s.comp.view = some v0) :
    (∀ v, start_interactive_action s v = (false, s)) ∧
    (∀ v, start_interactive_resize s v = s) ∧
    (∀ ops : List AcquireOp, runAcquires s ops = s ∧
      (runAcquires s ops).comp.view = some v0 ∧
      (runAcquires s ops).comp.edges = s.comp.edges) := by
  have ha : ∀ v, start_interactive_action s v = (false, s) := by
    intro v
    simp [start_interactive_action, h]
  have hr : ∀ v, start_interactive_resize s v = s := by
    intro v
    simp [start_interactive_resize, ha v]
  have hrun : ∀ ops : List AcquireOp, runAcquires s ops = s := by
    intro ops
    induction ops with
    | nil => rfl
    | cons op ops ih =>
        have hstep : runAcquire s op = s := by
          cases op with
          | move v => simp [runAcquire, start_interactive_move, ha v]
          | resize v => simp [runAcquire, hr v]
        simpa [runAcquires, hstep] using ih
  exact ⟨ha, hr, fun ops => ⟨hrun ops, by rw [hrun ops]; exact h, by rw [hrun ops]⟩⟩

theorem single_session_witness :
    start_interactive_action wActive 2 = (false, wActive) ∧
    runAcquires wActive [AcquireOp.resize 2, AcquireOp.move 3] = wActive :=
  ⟨(single_session wActive 1 rfl).1 2,
   ((single_session wActive 1 rfl).2.2 [AcquireOp.resize 2, AcquireOp.move 3]).1⟩

/-- C3 (code bug): on an output with stacking order `[1, 2]` where window `1`
is hidden — exactly one visible window, `2` — `update_layout` runs the
single-window branch on the *unfiltered* list and assigns the full 1920×1080
rectangle to the hidden window `1`; the visible window `2` receives no
geometry at all. -/
theorem update_layout_single_visible_bug :
    update_layout ⟨1920, 1080⟩ [1, 2] [1] =
      some [(1, ⟨⟨0, 0⟩, ⟨1920, 1080⟩⟩)] := by decide

/-- C4 (code bug): an output whose only window is hidden has zero visible
windows but a nonempty view list, so `update_layout` reaches the multi-window
branch with `viewlen = 0` and panics on a division by zero (modelled `none`);
only the genuinely empty output is the promised no-op. -/
theorem update_layout_all_hidden_panics :
    update_layout ⟨1920, 1080⟩ [1] [1] = none ∧
    update_layout ⟨1920, 1080⟩ [] [5] = some [] := by decide

/-- C9: `stop_interactive_action` is idempotent: after any call the session
is absent; a second call changes nothing; with no active session it is the
identity (no flag changes); and releasing an active session empties the
edge-set. -/
theorem stop_idempotent (s : World) :
    (stop_interactive_action s).comp.view = none ∧
    stop_interactive_action (stop_interactive_action s) =
      stop_interactive_action s ∧
    (s.comp.view = none → stop_interactive_action s = s) ∧
    (s.comp.view ≠ none → (stop_interactive_action s).comp.edges = 0) := by
  cases hv : s.comp.view with
  | none => simp [stop_interactive_action, hv]
  | some v => simp [stop_interactive_action, hv]

theorem stop_idempotent_witness :
    stop_interactive_action baseWorld = baseWorld ∧
    (stop_interactive_action wActive).comp.edges = 0 :=
  ⟨(stop_idempotent baseWorld).2.2.1 rfl,
   (stop_idempotent wActive).2.2.2 (by decide)⟩

/-- C10: the keyboard handler consumes an event only on a key press whose
modifier set is exactly `MOD_ALT`; every release, and every press with any
other modifier set, returns `false` with the world unchanged. -/
theorem keyboard_gate (s : World) (view : WlcView) (mods sym : Nat)
    (st : KeyState) :
    (¬(st = KeyState.Pressed ∧ mods = MOD_ALT) →
      on_keyboard_key s view mods sym st = some (false, s)) ∧
    (∀ b s2, on_keyboard_key s view mods sym st = some (b, s2) → b = true →
      st = KeyState.Pressed ∧ mods = MOD_ALT) := by
  constructor
  · intro h
    simp only [on_keyboard_key, if_neg h]
  · intro b s2 heq hb
    by_cases h : st = KeyState.Pressed ∧ mods = MOD_ALT
    · exact h
    · rw [hb] at heq
      simp only [on_keyboard_key, if_neg h, Option.some.injEq, Prod.mk.injEq] at heq
      exact absurd heq.1 (by simp)

theorem keyboard_gate_witness :
    on_keyboard_key baseWorld 7 MOD_ALT KEY_d KeyState.Released =
      some (false, baseWorld) :=
  (keyboard_gate baseWorld 7 MOD_ALT KEY_d KeyState.Released).1 (by simp)

/-- C8: while a resize session (non-empty edge-set) is active, every pointer
motion keeps the window's origin and sets its size to
`max 32 (pointer.x - origin.x)` by `max 32 (pointer.y - origin.y)` — at least
32 in each dimension, so never zero (and `Int.toNat` of a value ≥ 32 loses
nothing). -/
theorem resize_motion_floor (s : World) (view : WlcView) (p : Point)
    (hv : s.comp.view = some view) (he : s.comp.edges ≠ 0) :
    (on_pointer_motion s p).1 = true ∧
    ((on_pointer_motion s p).2.geom view).origin = (s.geom view).origin ∧
    ((on_pointer_motion s p).2.geom view).size =
      ⟨(max 32 (p.x - (s.geom view).origin.x)).toNat,
       (max 32 (p.y - (s.geom view).origin.y)).toNat⟩ ∧
    32 ≤ ((on_pointer_motion s p).2.geom view).size.w ∧
    32 ≤ ((on_pointer_motion s p).2.geom view).size.h := by
  have hsz : ∀ a b : Int, (if a > b then max (a - b) 32 else 32) = max 32 (a - b) := by
    intro a b
    by_cases hab : a > b
    · rw [if_pos hab, max_comm]
    · rw [if_neg hab, eq_comm, max_eq_left (by omega)]
  have hge : ∀ z : Int, 32 ≤ (max 32 z).toNat := by
    intro z
    have := le_max_left 32 z
    omega
  simp only [on_pointer_motion, hv, if_pos he, set_geom, if_pos rfl, hsz, if_true]
  exact ⟨trivial, trivial, trivial, hge _, hge _⟩

theorem resize_motion_floor_witness :
    ((on_pointer_motion wC8 ⟨80, 80⟩).2.geom 9).size = ⟨32, 32⟩ ∧
    (on_pointer_motion wC8 ⟨80, 80⟩).1 = true :=
  ⟨((resize_motion_floor wC8 9 ⟨80, 80⟩ rfl (by decide)).2.2.1).trans (by decide),
   (resize_motion_floor wC8 9 ⟨80, 80⟩ rfl (by decide)).1⟩

/-- With at least two windows left over after discounting the hidden ones,
`update_layout` takes the grid branch and returns the enumerated, filtered
assignment list. -/
theorem update_layout_eq (resolution : Size) (views hidden : List WlcView)
    (h2 : 2 ≤ views.length - hidden.length) :
    update_layout resolution views hidden =
      some (((views.filter (fun v => !(hidden.contains v))).enum).map (fun p =>
        (p.2,
          if p.1 &&& 1 = 1 then
            ⟨⟨((resolution.w / 2 : Nat) : Int),
              ((resolution.h / ((views.length - hidden.length) / 2) : Nat) : Int) *
                ((p.1 / 2 : Nat) : Int)⟩,
             ⟨resolution.w / 2, resolution.h / ((views.length - hidden.length) / 2)⟩⟩
          else
            ⟨⟨0,
              ((resolution.h / ((views.length - hidden.length + 1) / 2) : Nat) : Int) *
                ((p.1 / 2 : Nat) : Int)⟩,
             ⟨resolution.w / 2,
              resolution.h / ((views.length - hidden.length + 1) / 2)⟩⟩))) := by
  have hne : ¬(views = []) := by
    intro hnil
    rw [hnil] at h2
    simp at h2
  simp only [update_layout, if_neg hne]
  rw [if_neg (by omega), if_neg (by omega)]

/-- C2: when the windows of the output minus its hidden windows leave
`N ≥ 2` visible windows, `update_layout` succeeds and assigns the `i`-th
visible window (in stacking order) exactly the tile the spec describes:
width `resolution.w / 2`, left column of height `resolution.h / ceil(N/2)`
for even `i`, right column (`x = resolution.w / 2`) of height
`resolution.h / floor(N/2)` for odd `i`, vertical offset `row_height * (i/2)`
with integer division throughout. -/
theorem update_layout_tiles (resolution : Size) (views hidden : List WlcView)
    (hc : (views.filter (fun v => !(hidden.contains v))).length + hidden.length =
      views.length)
    (h2 : 2 ≤ (views.filter (fun v => !(hidden.contains v))).length) (i : Nat) :
    (update_layout resolution views hidden).map (fun L => L[i]?) =
      some (((views.filter (fun v => !(hidden.contains v)))[i]?).map (fun v =>
        (v, expectedTile resolution
          (views.filter (fun v => !(hidden.contains v))).length i))) := by
  have hlen : views.length - hidden.length =
      (views.filter (fun v => !(hidden.contains v))).length := by omega
  rw [update_layout_eq resolution views hidden (by omega), Option.map_some']
  rw [List.getElem?_map, List.getElem?_enum, Option.map_map]
  cases hv : (views.filter (fun v => !(hidden.contains v)))[i]? with
  | none => simp
  | some v =>
      simp only [Option.map_some', Function.comp_apply, Option.some.injEq]
      rw [Nat.and_one_is_mod, hlen]
      simp only [expectedTile]

theorem update_layout_tiles_witness :
    (update_layout ⟨1920, 1080⟩ [1, 2, 3] []).map (fun L => L[0]?) =
      some (some (1, ⟨⟨0, 0⟩, ⟨960, 540⟩⟩)) ∧
    (update_layout ⟨1920, 1080⟩ [1, 2, 3] []).map (fun L => L[1]?) =
      some (some (2, ⟨⟨960, 0⟩, ⟨960, 1080⟩⟩)) ∧
    (update_layout ⟨1920, 1080⟩ [1, 2, 3] []).map (fun L => L[2]?) =
      some (some (3, ⟨⟨0, 540⟩, ⟨960, 540⟩⟩)) :=
  ⟨(update_layout_tiles ⟨1920, 1080⟩ [1, 2, 3] [] (by decide) (by decide) 0).trans
    (by decide),
   (update_layout_tiles ⟨1920, 1080⟩ [1, 2, 3] [] (by decide) (by decide) 1).trans
    (by decide),
   (update_layout_tiles ⟨1920, 1080⟩ [1, 2, 3] [] (by decide) (by decide) 2).trans
    (by decide)⟩

/-- C5 (counterexample): window `3` is hidden and is also the interactive
session's window; destroying it leaves `comp.view = some 3`, so the session
still references the destroyed window after the callback — `on_view_destroyed`
never touches the `COMPOSITOR` cell. -/
theorem destroy_keeps_session :
    (on_view_destroyed wC5 3).map (fun s => s.comp.view) = some (some 3) ∧
    wC5.comp.view = some 3 := by decide

/-- C5 (amended): `on_view_destroyed` erases the destroyed window's handle
from the Visibility Stack in the same callback — so when the handle occurred
at most once, it is gone and a subsequent `restore` (popping the stack) can
never return it — but it leaves the Interactive Session cell unchanged, so a
session referencing the destroyed window is *not* cleaned up. -/
theorem destroy_removes_hidden (s : World) (view : WlcView) (s2 : World)
    (h : on_view_destroyed s view = some s2) :
    s2.hidden = s.hidden.erase view ∧ s2.comp = s.comp ∧
    (s.hidden.count view ≤ 1 →
      view ∉ s2.hidden ∧ s2.hidden.getLast? ≠ some view) := by
  have hbase : s2.hidden = s.hidden.erase view ∧ s2.comp = s.comp := by
    cases hm : (s.stack.reverse.filter (fun v => !(s.hidden.contains v))).head? with
    | none =>
        simp only [on_view_destroyed, hm, update_layout_world,
          Option.map_eq_some'] at h
        obtain ⟨L, _, hs2⟩ := h
        rw [← hs2]
        exact ⟨rfl, rfl⟩
    | some lastview =>
        simp only [on_view_destroyed, hm, update_layout_world,
          Option.map_eq_some'] at h
        obtain ⟨L, _, hs2⟩ := h
        rw [← hs2]
        exact ⟨rfl, rfl⟩
  refine ⟨hbase.1, hbase.2, fun hc => ?_⟩
  have hzero : s2.hidden.count view = 0 := by
    rw [hbase.1, List.count_erase_self]
    omega
  have hnot : view ∉ s2.hidden := List.count_eq_zero.mp hzero
  exact ⟨hnot, fun hlast => hnot (List.mem_of_getLast?_eq_some hlast)⟩

theorem destroy_removes_hidden_witness :
    wC5d2.hidden = wC5d.hidden.erase 3 ∧ wC5d2.comp = wC5d.comp ∧
    (3 ∉ wC5d2.hidden ∧ wC5d2.hidden.getLast? ≠ some 3) := by
  have h := destroy_removes_hidden wC5d 3 wC5d2 rfl
  exact ⟨h.1, h.2.1, h.2.2 (by decide)⟩

/-- C6 (counterexample): Alt+Left on the focused view `7` with only one
visible window but hidden window `5` below it on the same stack: the key is
consumed, yet the stacking order changes from `[5, 7]` to `[7, 5]` — the
handler sends the view to the back *before* the fewer-than-2-visible check. -/
theorem cycle_left_side_effect :
    (on_keyboard_key wC6 7 MOD_ALT KEY_Left KeyState.Pressed).map
      (fun r => (r.1, r.2.stack)) = some (true, [7, 5]) ∧
    wC6.stack = [5, 7] := by decide

/-- C6 (amended): on an output with fewer than 2 visible windows, Alt+Right
is consumed with no side effect at all, and Alt+Left is consumed with no
raise, focus or layout side effect — but a non-root view is first sent to
the back of the stack (the reorder is the one surviving effect). -/
theorem cycle_few_visible (s : World) (view : WlcView) (sym : Nat)
    (hsym : sym = KEY_Left ∨ sym = KEY_Right)
    (hvis : (s.stack.filter (fun v => !(s.hidden.contains v))).length < 2)
    (hmem : view ∈ s.stack) :
    on_keyboard_key s view MOD_ALT sym KeyState.Pressed =
      some (true,
        if sym = KEY_Left ∧ is_root view = false then
          {s with stack := send_to_back view s.stack}
        else s) := by
  have hperm : ((send_to_back view s.stack).filter
      (fun v => !(s.hidden.contains v))).length =
      (s.stack.filter (fun v => !(s.hidden.contains v))).length :=
    (((List.perm_cons_erase hmem).symm).filter _).length_eq
  simp only [List.contains, List.elem_eq_mem] at hvis hperm
  cases hsym with
  | inl hl =>
      subst hl
      by_cases hroot : is_root view
      · simp [on_keyboard_key, KEY_Left, KEY_d, hroot]
      · simp [on_keyboard_key, KEY_Left, KEY_d, hroot, hperm, hvis]
  | inr hr =>
      subst hr
      by_cases hroot : is_root view
      · simp [on_keyboard_key, KEY_Right, KEY_d, KEY_Left, hroot]
      · simp [on_keyboard_key, KEY_Right, KEY_d, KEY_Left, hroot, hvis]

theorem cycle_few_visible_witness :
    on_keyboard_key wC6w 7 MOD_ALT KEY_Right KeyState.Pressed =
      some (true, wC6w) := by
  have h := cycle_few_visible wC6w 7 KEY_Right (Or.inr rfl) (by decide) (by decide)
  rw [h, if_neg (by decide)]

/-- C7 (code bug): hide pushes unconditionally and does not move focus, so a
second Alt+Down on the still-focused view `3` pushes its handle a second
time: the hidden stack ends as `[3, 3]`. -/
theorem hide_pushes_duplicate :
    ((on_keyboard_key wC7 3 MOD_ALT KEY_Down KeyState.Pressed).bind
      (fun r => on_keyboard_key r.2 3 MOD_ALT KEY_Down KeyState.Pressed)).map
      (fun r => r.2.hidden) = some [3, 3] := by decide

end Noway
